import Mathlib

/-!
# Lifecycle controller of the embedded proxy

A shallow embedding of `app/src/main/cpp/native-lib.c`: the three JNI entry points
`jniStartProxy`, `jniStopProxy`, `jniForceClose`, the helper `reset_params`, and the
process-wide variables they share (`g_proxy_running`, `server_fd`, `g_event_pool`,
`params`, `optind`).

Conventions of the embedding.

* C `int` variables are `Int`; a C condition `if (x)` is `x ≠ 0`.
* Every region between `pthread_mutex_lock(&g_proxy_mutex)` and the matching unlock is
  one atomic transition on `ProxyState`.
* Calls into the C library and into JNI whose outcome the code tests (`calloc`,
  `strdup`, `GetStringUTFChars`, `shutdown`, `close`) take their outcome from an
  explicit argument; the calls themselves are recorded in event lists (`SysEv` for the
  socket, `MemEv` for the heap) and every `LOG` line is recorded as a `Log` value.
* The blocking call `main(argc, argv)` is outside this file's source; it is a function
  argument of `jniStartProxy`, and an in-flight record in the interleaving model `Sys`.
-/

namespace ByeDpi

/-! ## Engine configuration -/

/-- Socket address families named by the initialiser of `default_params`. -/
inductive AddrFamily where
  | AF_UNSPEC
  | AF_INET
  | AF_INET6
  deriving DecidableEq, Repr

/-- The members of `struct params` that the initialiser of `default_params` names.
The structure itself is declared in `byedpi/params.h`; its remaining members are
collected in `rest`, where `0` stands for "all of them zero", the value a designated
initialiser gives to members it does not name. -/
structure Params where
  await_int : Int
  cache_ttl : Int
  ipv6 : Int
  resolve : Int
  udp : Int
  max_open : Int
  bfsize : Int
  baddr_family : AddrFamily
  laddr_family : AddrFamily
  debug : Int
  rest : Nat
  deriving DecidableEq, Repr

/-- The value of `struct params default_params` (lines 22-37). -/
def default_params : Params :=
  { await_int := 10
    cache_ttl := 100800
    ipv6 := 1
    resolve := 1
    udp := 1
    max_open := 512
    bfsize := 16384
    baddr_family := AddrFamily.AF_INET6
    laddr_family := AddrFamily.AF_INET
    debug := 0
    rest := 0 }

/-- The function `reset_params` (lines 39-42): `clear_params()` runs on the current
configuration, then the whole structure is overwritten by `default_params`.
`clear_params` belongs to the engine and is an argument here. -/
def reset_params (clear_params : Params → Params) (params : Params) : Params :=
  let _cleared := clear_params params
  default_params

/-! ## Shared state -/

/-- The engine's runtime pool as far as the controller touches it: the field `brk`. -/
structure Pool where
  brk : Int
  deriving DecidableEq, Repr

/-- The process-wide variables read or written by the three entry points.
`g_event_pool` is a pointer: `none` is `NULL`. -/
structure ProxyState where
  g_proxy_running : Int
  server_fd : Int
  g_event_pool : Option Pool
  params : Params
  optind : Int
  deriving DecidableEq, Repr

/-! ## Observable events -/

/-- One value per `LOG(LOG_S, ...)` line of the file, in source order. -/
inductive Log where
  | alreadyRunning
  | invalidArgsCount (argc : Int)
  | argvAllocFailed
  | dupFailed (i : Nat)
  | starting (argc : Int)
  | returnCode (result : Int)
  | sendShutdown
  | notRunning
  | invalidServerFd (fd : Int)
  | setBrk
  | poolNull
  | shutdownFailed
  | shutdownDone (fd : Int)
  | forceClosing (fd : Int)
  | alreadyClosed (fd : Int)
  | closeFailed (fd : Int)
  | forceClosed (fd : Int)
  deriving DecidableEq, Repr

/-- Socket calls issued on the server handle: `shutdown(fd, SHUT_RDWR)` (half-close)
and `close(fd)` (full close). -/
inductive SysEv where
  | shutdown (fd : Int)
  | close (fd : Int)
  deriving DecidableEq, Repr

/-- Heap buffers owned by one `jniStartProxy` call: the vector returned by `calloc`
and the string returned by `strdup` for slot `i`. -/
inductive Buf where
  | vec
  | slot (i : Nat)
  deriving DecidableEq, Repr

/-- Heap events of one `jniStartProxy` call. -/
inductive MemEv where
  | alloc (b : Buf)
  | free (b : Buf)
  deriving DecidableEq, Repr

/-- Result of one atomic section or one whole call: the returned value, the shared
state afterwards, and the log lines, socket calls and heap events it produced. -/
structure Out (α : Type) where
  ret : α
  state : ProxyState
  log : List Log
  sys : List SysEv
  mem : List MemEv

/-- Outcomes, per call, of the operations `jniStartProxy` tests: `calloc`,
`GetStringUTFChars` on element `i`, `strdup` for slot `i`; and the engine's
`clear_params`. -/
structure Env where
  callocOk : Bool
  utfOk : Nat → Bool
  strdupOk : Nat → Bool
  clear_params : Params → Params

/-! ## jniStartProxy -/

/-- State of the marshalling loop when it is left: the vector, the `error` flag, and
the log lines and heap events of the loop. -/
structure Marshal where
  argv : List (Option String)
  error : Bool
  log : List Log
  mem : List MemEv

/-- The loop of lines 69-93, with `n` iterations left, at index `i`, on vector `argv`.
`args.getD i none` is `GetObjectArrayElement(env, args, i)`; a `none` element is a
null `jstring`. The vector starts zero-filled (`calloc`), so a slot the loop never
reaches stays `NULL`. `ReleaseStringUTFChars` and `DeleteLocalRef` act on JNI
references only and leave no trace here. -/
def marshalLoop (env : Env) (args : List (Option String)) :
    Nat → Nat → List (Option String) → Marshal
  | 0, _, argv => ⟨argv, false, [], []⟩
  | n + 1, i, argv =>
    match args.getD i none with
    | none => marshalLoop env args n (i + 1) (argv.set i none)
    | some arg_str =>
      if env.utfOk i then
        if env.strdupOk i then
          let m := marshalLoop env args n (i + 1) (argv.set i (some arg_str))
          { m with mem := MemEv.alloc (Buf.slot i) :: m.mem }
        else
          ⟨argv.set i none, true, [Log.dupFailed i], []⟩
      else
        marshalLoop env args n (i + 1) (argv.set i none)

/-- The loop `for (i = 0; i < argc; i++) if (argv[i]) free(argv[i]);` (lines 96-98 and
118-120), with `n` iterations left at index `i`. -/
def freeLoop (argv : List (Option String)) : Nat → Nat → List MemEv
  | 0, _ => []
  | n + 1, i =>
    if (argv.getD i none).isSome then
      MemEv.free (Buf.slot i) :: freeLoop argv n (i + 1)
    else
      freeLoop argv n (i + 1)

/-- The free loop followed by `free(argv)` (lines 96-99 and 118-121). -/
def releaseArgv (argc : Int) (argv : List (Option String)) : List MemEv :=
  freeLoop argv argc.toNat 0 ++ [MemEv.free Buf.vec]

/-- How the first locked section of `jniStartProxy` is left: by a `return` statement,
or by falling through to `main(argc, argv)`. -/
inductive Entered where
  | returned (code : Int)
  | invoke (argc : Int) (argv : List (Option String))
  deriving DecidableEq, Repr

/-- Lines 46-108 of `jniStartProxy`: from taking the mutex to releasing it, either on
one of the four early returns or right before `main` is called. -/
def jniStartProxy_entry (env : Env) (s : ProxyState) (args : List (Option String)) :
    Out Entered :=
  if s.g_proxy_running ≠ 0 then
    ⟨Entered.returned (-1), s, [Log.alreadyRunning], [], []⟩
  else
    let argc : Int := args.length
    if argc ≤ 0 then
      ⟨Entered.returned (-1), s, [Log.invalidArgsCount argc], [], []⟩
    else if env.callocOk = false then
      ⟨Entered.returned (-1), s, [Log.argvAllocFailed], [], []⟩
    else
      let m := marshalLoop env args argc.toNat 0 (List.replicate argc.toNat none)
      if m.error then
        ⟨Entered.returned (-1), s, m.log, [],
          MemEv.alloc Buf.vec :: m.mem ++ releaseArgv argc m.argv⟩
      else
        ⟨Entered.invoke argc m.argv,
          { s with
            params := reset_params env.clear_params s.params
            g_proxy_running := 1
            optind := 1 },
          m.log ++ [Log.starting argc], [], MemEv.alloc Buf.vec :: m.mem⟩

/-- Lines 112-123 of `jniStartProxy`: what runs once `main` has returned `result`. -/
def jniStartProxy_exit (s : ProxyState) (argc : Int) (argv : List (Option String))
    (result : Int) : Out Int :=
  ⟨result, { s with g_proxy_running := 0 }, [Log.returnCode result], [],
    releaseArgv argc argv⟩

/-- The whole of `jniStartProxy` (lines 44-124). `main s argc argv` is the blocking
engine call: it yields the shared state at the moment the engine returns (which
includes whatever other threads did meanwhile) and the engine's exit code. -/
def jniStartProxy (env : Env)
    (main : ProxyState → Int → List (Option String) → ProxyState × Int)
    (s : ProxyState) (args : List (Option String)) : Out Int :=
  let e := jniStartProxy_entry env s args
  match e.ret with
  | Entered.returned code => ⟨code, e.state, e.log, e.sys, e.mem⟩
  | Entered.invoke argc argv =>
    let r := main e.state argc argv
    let x := jniStartProxy_exit r.1 argc argv r.2
    ⟨x.ret, x.state, e.log ++ x.log, e.sys ++ x.sys, e.mem ++ x.mem⟩

/-! ## jniStopProxy and jniForceClose -/

/-- Lines 146-153 and 186-193: under `g_pool_mutex`, set `g_event_pool->brk = 1` when
the pointer is not `NULL`. -/
def signalPool (pool : Option Pool) : Option Pool × Log :=
  match pool with
  | some p => (some { p with brk := 1 }, Log.setBrk)
  | none => (none, Log.poolNull)

/-- The function `jniStopProxy` (lines 126-170); `ret` is what
`shutdown(server_fd, SHUT_RDWR)` returns. -/
def jniStopProxy (s : ProxyState) (ret : Int) : Out Int :=
  if s.g_proxy_running = 0 then
    ⟨-1, s, [Log.sendShutdown, Log.notRunning], [], []⟩
  else if s.server_fd < 0 then
    ⟨-1, { s with g_proxy_running := 0 },
      [Log.sendShutdown, Log.invalidServerFd s.server_fd], [], []⟩
  else
    let p := signalPool s.g_event_pool
    ⟨0, { s with g_event_pool := p.1, g_proxy_running := 0 },
      [Log.sendShutdown, p.2,
        if ret < 0 then Log.shutdownFailed else Log.shutdownDone s.server_fd],
      [SysEv.shutdown s.server_fd], []⟩

/-- The function `jniForceClose` (lines 172-210); `closeRet` is what
`close(server_fd)` returns (the result of `shutdown` is not looked at). -/
def jniForceClose (s : ProxyState) (closeRet : Int) : Out Int :=
  if s.server_fd < 0 then
    ⟨0, { s with g_proxy_running := 0 },
      [Log.forceClosing s.server_fd, Log.alreadyClosed s.server_fd], [], []⟩
  else
    let p := signalPool s.g_event_pool
    ⟨0, { s with g_event_pool := p.1, server_fd := -1, g_proxy_running := 0 },
      [Log.forceClosing s.server_fd, p.2,
        if closeRet = -1 then Log.closeFailed s.server_fd
        else Log.forceClosed s.server_fd],
      [SysEv.shutdown s.server_fd, SysEv.close s.server_fd], []⟩

/-! ## Interleavings of calls from several threads -/

/-- An engine invocation `main(argc, argv)` that has been entered and has not
returned yet. -/
structure Call where
  argc : Int
  argv : List (Option String)
  deriving DecidableEq, Repr

/-- The shared state together with the engine invocations in flight and the number of
times `main` has been called so far. -/
structure Sys where
  st : ProxyState
  inflight : List Call
  invocations : Nat
  deriving DecidableEq, Repr

/-- Atomic steps of the system: the locked entry section of a `jniStartProxy` call,
the return of the `k`-th engine invocation in flight with exit code `r` (followed by
the rest of that `jniStartProxy` call), a `jniStopProxy` call, a `jniForceClose`
call, and the running engine storing its listening socket in `server_fd` or its pool
in `g_event_pool`. -/
inductive Action where
  | start (env : Env) (args : List (Option String))
  | engineReturn (k : Nat) (r : Int)
  | stop (ret : Int)
  | forceClose (closeRet : Int)
  | publishHandle (fd : Int)
  | publishPool (pool : Option Pool)

/-- One step; `none` when the step is not enabled (an engine step with no such
invocation in flight). -/
def step (S : Sys) : Action → Option Sys
  | Action.start env args =>
    let e := jniStartProxy_entry env S.st args
    match e.ret with
    | Entered.returned _ => some { S with st := e.state }
    | Entered.invoke argc argv =>
      some { st := e.state
             inflight := S.inflight ++ [⟨argc, argv⟩]
             invocations := S.invocations + 1 }
  | Action.engineReturn k r =>
    match S.inflight[k]? with
    | none => none
    | some c =>
      some { S with
        st := (jniStartProxy_exit S.st c.argc c.argv r).state
        inflight := S.inflight.eraseIdx k }
  | Action.stop ret => some { S with st := (jniStopProxy S.st ret).state }
  | Action.forceClose closeRet =>
    some { S with st := (jniForceClose S.st closeRet).state }
  | Action.publishHandle fd =>
    if S.inflight = [] then none else some { S with st := { S.st with server_fd := fd } }
  | Action.publishPool pool =>
    if S.inflight = [] then none
    else some { S with st := { S.st with g_event_pool := pool } }

/-- Run a list of steps from `S`. -/
def run (S : Sys) : List Action → Option Sys
  | [] => some S
  | a :: tr => (step S a).bind fun S1 => run S1 tr

/-- An initial state: the flag has its initialiser value `0` (line 19) and no engine
invocation has been made. The other variables are the engine's and are arbitrary. -/
def Initial (S : Sys) : Prop :=
  S.st.g_proxy_running = 0 ∧ S.inflight = [] ∧ S.invocations = 0

/-- States reachable from an initial state. -/
def Reachable (S : Sys) : Prop :=
  ∃ S0 tr, Initial S0 ∧ run S0 tr = some S

/-- Steps that are a `jniStopProxy` or `jniForceClose` call. -/
def Action.isShutdown : Action → Bool
  | Action.stop _ => true
  | Action.forceClose _ => true
  | _ => false

/-- A set flag means an engine invocation is in flight. -/
def FlagSound (S : Sys) : Prop :=
  S.st.g_proxy_running = 1 → S.inflight ≠ []

/-- The flag counts the invocations in flight: `0` with none, `1` with exactly one. -/
def FlagExact (S : Sys) : Prop :=
  (S.st.g_proxy_running = 0 ∧ S.inflight = []) ∨
  (S.st.g_proxy_running = 1 ∧ S.inflight.length = 1)

/-! ## Heap discipline -/

/-- Buffers allocated in a heap trace, in order. -/
def allocs : List MemEv → List Buf
  | [] => []
  | MemEv.alloc b :: t => b :: allocs t
  | MemEv.free _ :: t => allocs t

/-- Buffers freed in a heap trace, in order. -/
def frees : List MemEv → List Buf
  | [] => []
  | MemEv.alloc _ :: t => frees t
  | MemEv.free b :: t => b :: frees t

/-- No buffer is allocated twice, and the freed buffers are the allocated ones, each
once. -/
def ReleasedExactlyOnce (mem : List MemEv) : Prop :=
  (allocs mem).Nodup ∧ (frees mem).Perm (allocs mem)

/-! ## Concrete inputs used in examples -/

/-- Every allocation succeeds; `clear_params` leaves the structure alone. -/
def envOk : Env := ⟨true, fun _ => true, fun _ => true, fun p => p⟩

/-- The vector cannot be allocated. -/
def envNoVec : Env := ⟨false, fun _ => true, fun _ => true, fun p => p⟩

/-- The duplication of slot 1 fails. -/
def envDupFails1 : Env := ⟨true, fun _ => true, fun i => decide (i ≠ 1), fun p => p⟩

/-- An idle state with a listening socket already stored and no pool. -/
def idleState : ProxyState :=
  { g_proxy_running := 0, server_fd := 7, g_event_pool := none,
    params := default_params, optind := 1 }

/-- A running state with a listening socket and a pool whose flag is clear. -/
def runningState : ProxyState :=
  { g_proxy_running := 1, server_fd := 7, g_event_pool := some ⟨0⟩,
    params := default_params, optind := 1 }

/-- The state before the first run: flag clear, no listening socket, no pool. -/
def freshState : ProxyState :=
  { g_proxy_running := 0, server_fd := -1, g_event_pool := none,
    params := default_params, optind := 1 }

/-- The initial system over `freshState`. -/
def sys0 : Sys := ⟨freshState, [], 0⟩

/-- The system right after `jniStartProxy` entered the engine from `sys0` with
`portArgs`. -/
def sysStarted : Sys :=
  ⟨{ freshState with g_proxy_running := 1 }, [⟨2, [some "--port", some "1080"]⟩], 1⟩

/-- The argument list of the scenario. -/
def portArgs : List (Option String) := [some "--port", some "1080"]

/-- An engine during whose run another thread calls `jniStopProxy`, and which then
returns `r`. -/
def mainStopped (r : Int) : ProxyState → Int → List (Option String) → ProxyState × Int :=
  fun s _ _ => ((jniStopProxy s 0).state, r)

/-- An engine that returns `r` at once and leaves the shared state alone. -/
def mainReturns (r : Int) : ProxyState → Int → List (Option String) → ProxyState × Int :=
  fun s _ _ => (s, r)

/-- The characters of element 1 cannot be obtained (`GetStringUTFChars` returns
`NULL`); every other operation succeeds. -/
def envUtfFails1 : Env := ⟨true, fun i => decide (i ≠ 1), fun _ => true, fun p => p⟩

/-- A running state in which the engine has stored neither its listening socket nor
its pool. -/
def startedNoHandle : ProxyState :=
  { g_proxy_running := 1, server_fd := -1, g_event_pool := none,
    params := default_params, optind := 1 }

/-- A running state with a listening socket and no pool yet. -/
def startedNoPool : ProxyState :=
  { g_proxy_running := 1, server_fd := 7, g_event_pool := none,
    params := default_params, optind := 1 }

/-- A running state with a pool and an invalid handle. -/
def startedBadHandle : ProxyState :=
  { g_proxy_running := 1, server_fd := -1, g_event_pool := some ⟨0⟩,
    params := default_params, optind := 1 }

/-- An idle state as a previous run may leave it: configuration changed by the
engine's option parsing, `optind` past the options. -/
def usedState : ProxyState :=
  { g_proxy_running := 0, server_fd := -1, g_event_pool := none,
    params := { default_params with debug := 2, max_open := 64, ipv6 := 0, rest := 5 },
    optind := 3 }


/-! ## Lemmas on the vector -/

theorem getD_set_self {α : Type} (l : List α) (i : Nat) (v d : α) (h : i < l.length) :
    (l.set i v).getD i d = v := by
  simp [List.getD_eq_getElem?_getD, List.getElem?_set, h]

theorem getD_set_ne {α : Type} (l : List α) (i j : Nat) (v d : α) (h : i ≠ j) :
    (l.set i v).getD j d = l.getD j d := by
  simp [List.getD_eq_getElem?_getD, List.getElem?_set, h]

theorem getD_set_none (l : List (Option String)) (i : Nat) :
    (l.set i none).getD i none = none := by
  by_cases h : i < l.length
  · exact getD_set_self l i none none h
  · simp [List.getD_eq_getElem?_getD, List.getElem?_set, h]

theorem marshalLoop_length (env : Env) (args : List (Option String)) (n i : Nat)
    (argv : List (Option String)) :
    (marshalLoop env args n i argv).argv.length = argv.length := by
  induction n generalizing i argv with
  | zero => rfl
  | succ n ih =>
    unfold marshalLoop
    split
    · simp [ih]
    · split
      · split
        · simp [ih]
        · simp
      · simp [ih]

theorem marshalLoop_below (env : Env) (args : List (Option String)) (n i j : Nat)
    (argv : List (Option String)) (h : j < i) :
    (marshalLoop env args n i argv).argv.getD j none = argv.getD j none := by
  induction n generalizing i argv with
  | zero => rfl
  | succ n ih =>
    have hne : i ≠ j := by omega
    unfold marshalLoop
    split
    · rw [ih (i + 1) _ (by omega), getD_set_ne _ _ _ _ _ hne]
    · split
      · split
        · show (marshalLoop env args n (i + 1) _).argv.getD j none = _
          rw [ih (i + 1) _ (by omega), getD_set_ne _ _ _ _ _ hne]
        · exact getD_set_ne _ _ _ _ _ hne
      · rw [ih (i + 1) _ (by omega), getD_set_ne _ _ _ _ _ hne]

theorem freeLoop_none (a : List (Option String)) (n i : Nat)
    (h : ∀ j, i ≤ j → a.getD j none = none) : freeLoop a n i = [] := by
  induction n generalizing i with
  | zero => rfl
  | succ n ih =>
    unfold freeLoop
    rw [h i (le_refl i)]
    simpa using ih (i + 1) (fun j hj => h j (by omega))

theorem allocs_append (a b : List MemEv) : allocs (a ++ b) = allocs a ++ allocs b := by
  induction a with
  | nil => rfl
  | cons e t ih => cases e <;> simp [allocs, ih]

theorem frees_append (a b : List MemEv) : frees (a ++ b) = frees a ++ frees b := by
  induction a with
  | nil => rfl
  | cons e t ih => cases e <;> simp [frees, ih]

theorem allocs_freeLoop (a : List (Option String)) (n i : Nat) :
    allocs (freeLoop a n i) = [] := by
  induction n generalizing i with
  | zero => rfl
  | succ n ih =>
    unfold freeLoop
    split <;> simp [allocs, ih]

theorem frees_marshalLoop (env : Env) (args : List (Option String)) (n i : Nat)
    (argv : List (Option String)) : frees (marshalLoop env args n i argv).mem = [] := by
  induction n generalizing i argv with
  | zero => rfl
  | succ n ih =>
    unfold marshalLoop
    split
    · exact ih _ _
    · split
      · split
        · simp [frees, ih]
        · rfl
      · exact ih _ _

/-- The slots freed by the free loop over the vector the marshalling loop leaves are
the slots that loop allocated, in the same order. -/
theorem frees_freeLoop_marshalLoop (env : Env) (args : List (Option String)) (n i : Nat)
    (argv : List (Option String)) (hlen : i + n ≤ argv.length)
    (hnull : ∀ j, i ≤ j → argv.getD j none = none) :
    frees (freeLoop (marshalLoop env args n i argv).argv n i)
      = allocs (marshalLoop env args n i argv).mem := by
  induction n generalizing i argv with
  | zero => rfl
  | succ n ih =>
    have hnone : ∀ j, i + 1 ≤ j → (argv.set i none).getD j none = none := fun j hj => by
      rw [getD_set_ne _ _ _ _ _ (by omega)]; exact hnull j (by omega)
    have hskip : frees (freeLoop (marshalLoop env args n (i + 1) (argv.set i none)).argv
          (n + 1) i) = allocs (marshalLoop env args n (i + 1) (argv.set i none)).mem := by
      rw [freeLoop, marshalLoop_below _ _ _ _ _ _ (Nat.lt_succ_self i), getD_set_none]
      simpa using ih (i + 1) (argv.set i none) (by simpa using (by omega : i + 1 + n ≤ argv.length)) hnone
    unfold marshalLoop
    split
    · exact hskip
    · rename_i arg_str _
      split
      · split
        · show frees (freeLoop (marshalLoop env args n (i + 1) (argv.set i (some arg_str))).argv
            (n + 1) i) = allocs (MemEv.alloc (Buf.slot i) :: _)
          rw [freeLoop, marshalLoop_below _ _ _ _ _ _ (Nat.lt_succ_self i),
            getD_set_self _ _ _ _ (by omega)]
          simp only [Option.isSome_some, if_true, frees, allocs]
          rw [ih (i + 1) _ (by simpa using (by omega : i + 1 + n ≤ argv.length))]
          intro j hj
          rw [getD_set_ne _ _ _ _ _ (by omega)]; exact hnull j (by omega)
        · show frees (freeLoop (argv.set i none) (n + 1) i) = allocs []
          rw [freeLoop_none]
          · rfl
          · intro j hj
            by_cases hji : i = j
            · subst hji; exact getD_set_none _ _
            · rw [getD_set_ne _ _ _ _ _ hji]; exact hnull j hj
      · exact hskip

/-- The marshalling loop started at index `i` allocates only slots `j ≥ i`. -/
theorem allocs_marshalLoop_ge (env : Env) (args : List (Option String)) (n i : Nat)
    (argv : List (Option String)) (b : Buf)
    (hb : b ∈ allocs (marshalLoop env args n i argv).mem) : ∃ j, i ≤ j ∧ b = Buf.slot j := by
  induction n generalizing i argv with
  | zero => simp [marshalLoop, allocs] at hb
  | succ n ih =>
    unfold marshalLoop at hb
    split at hb
    · obtain ⟨j, hj, rfl⟩ := ih _ _ hb; exact ⟨j, by omega, rfl⟩
    · split at hb
      · split at hb
        · simp only [allocs, List.mem_cons] at hb
          rcases hb with rfl | hb
          · exact ⟨i, le_refl i, rfl⟩
          · obtain ⟨j, hj, rfl⟩ := ih _ _ hb; exact ⟨j, by omega, rfl⟩
        · simp [allocs] at hb
      · obtain ⟨j, hj, rfl⟩ := ih _ _ hb; exact ⟨j, by omega, rfl⟩

theorem allocs_marshalLoop_nodup (env : Env) (args : List (Option String)) (n i : Nat)
    (argv : List (Option String)) : (allocs (marshalLoop env args n i argv).mem).Nodup := by
  induction n generalizing i argv with
  | zero => simp [marshalLoop, allocs]
  | succ n ih =>
    unfold marshalLoop
    split
    · exact ih _ _
    · split
      · split
        · simp only [allocs, List.nodup_cons]
          refine ⟨fun hb => ?_, ih _ _⟩
          obtain ⟨j, hj, h⟩ := allocs_marshalLoop_ge _ _ _ _ _ _ hb
          injection h with h; omega
        · simp [allocs]
      · exact ih _ _

theorem marshalLoop_error_false (env : Env) (args : List (Option String)) (n i : Nat)
    (argv : List (Option String)) (hdup : ∀ j, env.strdupOk j = true) :
    (marshalLoop env args n i argv).error = false := by
  induction n generalizing i argv with
  | zero => rfl
  | succ n ih =>
    unfold marshalLoop
    split
    · exact ih _ _
    · split
      · split
        · exact ih _ _
        · rename_i h; exact absurd (hdup i) h
      · exact ih _ _

theorem marshalLoop_error_true (env : Env) (args : List (Option String)) (n i : Nat)
    (argv : List (Option String)) (k : Nat) (hik : i ≤ k) (hkn : k < i + n) (str : String)
    (harg : args.getD k none = some str) (hutf : env.utfOk k = true)
    (hdup : env.strdupOk k = false) :
    (marshalLoop env args n i argv).error = true := by
  induction n generalizing i argv with
  | zero => omega
  | succ n ih =>
    by_cases hk : i = k
    · subst hk
      unfold marshalLoop
      rw [harg]
      simp [hutf, hdup]
    · have h1 : i + 1 ≤ k := by omega
      have h2 : k < i + 1 + n := by omega
      unfold marshalLoop
      split
      · exact ih _ _ h1 h2
      · split
        · split
          · exact ih _ _ h1 h2
          · rfl
        · exact ih _ _ h1 h2

theorem marshalLoop_copy (env : Env) (args : List (Option String)) (n i : Nat)
    (argv : List (Option String)) (hutf : ∀ j, env.utfOk j = true)
    (hdup : ∀ j, env.strdupOk j = true) (hlen : i + n ≤ argv.length) (j : Nat)
    (hij : i ≤ j) (hjn : j < i + n) :
    (marshalLoop env args n i argv).argv.getD j none = args.getD j none := by
  induction n generalizing i argv with
  | zero => omega
  | succ n ih =>
    have hstep : ∀ v : Option String, args.getD i none = v →
        (marshalLoop env args n (i + 1) (argv.set i v)).argv.getD j none
          = args.getD j none := fun v hv => by
      by_cases hk : i = j
      · subst hk
        rw [marshalLoop_below _ _ _ _ _ _ (Nat.lt_succ_self i),
          getD_set_self _ _ _ _ (by omega), hv]
      · exact ih (i + 1) _ (by simpa using (by omega : i + 1 + n ≤ argv.length))
          (by omega) (by omega)
    unfold marshalLoop
    split
    · rename_i h; exact hstep none h
    · rename_i arg_str h
      simp only [hutf, hdup, if_true]
      exact hstep (some arg_str) h

/-- With every allocation succeeding, the vector left by the loop is the host list. -/
theorem marshalLoop_eq_args (env : Env) (args : List (Option String))
    (hutf : ∀ j, env.utfOk j = true) (hdup : ∀ j, env.strdupOk j = true) :
    (marshalLoop env args args.length 0 (List.replicate args.length none)).argv = args := by
  apply List.ext_getElem
  · rw [marshalLoop_length]; simp
  · intro j h1 h2
    have h := marshalLoop_copy env args args.length 0 (List.replicate args.length none)
      hutf hdup (by simp) j (Nat.zero_le j) (by simpa using h2)
    rw [List.getD_eq_getElem _ _ h1, List.getD_eq_getElem _ _ h2] at h
    exact h

theorem allocs_cons_alloc (b : Buf) (t : List MemEv) :
    allocs (MemEv.alloc b :: t) = b :: allocs t := rfl

theorem allocs_cons_free (b : Buf) (t : List MemEv) :
    allocs (MemEv.free b :: t) = allocs t := rfl

theorem frees_cons_alloc (b : Buf) (t : List MemEv) :
    frees (MemEv.alloc b :: t) = frees t := rfl

theorem frees_cons_free (b : Buf) (t : List MemEv) :
    frees (MemEv.free b :: t) = b :: frees t := rfl

theorem getD_replicate_none (n j : Nat) :
    (List.replicate n (none : Option String)).getD j none = none := by
  by_cases h : j < n <;> simp [List.getD_eq_getElem?_getD, List.getElem?_replicate, h]

/-- The heap trace of a call that allocated the vector, ran the marshalling loop and
released the vector frees each buffer it allocated exactly once. -/
theorem released_marshal (env : Env) (args : List (Option String)) (n : Nat) :
    ReleasedExactlyOnce
      (MemEv.alloc Buf.vec :: (marshalLoop env args n 0 (List.replicate n none)).mem
        ++ releaseArgv (n : Int) (marshalLoop env args n 0 (List.replicate n none)).argv) := by
  have hfree := frees_freeLoop_marshalLoop env args n 0 (List.replicate n none) (by simp)
    (fun j _ => getD_replicate_none n j)
  have ha : allocs (MemEv.alloc Buf.vec :: (marshalLoop env args n 0 (List.replicate n none)).mem
        ++ releaseArgv (n : Int) (marshalLoop env args n 0 (List.replicate n none)).argv)
      = Buf.vec :: allocs (marshalLoop env args n 0 (List.replicate n none)).mem := by
    rw [List.cons_append, allocs_cons_alloc, allocs_append, releaseArgv, allocs_append,
      allocs_freeLoop, allocs_cons_free]
    simp [allocs]
  have hf : frees (MemEv.alloc Buf.vec :: (marshalLoop env args n 0 (List.replicate n none)).mem
        ++ releaseArgv (n : Int) (marshalLoop env args n 0 (List.replicate n none)).argv)
      = allocs (marshalLoop env args n 0 (List.replicate n none)).mem ++ [Buf.vec] := by
    rw [List.cons_append, frees_cons_alloc, frees_append, releaseArgv, frees_append,
      frees_marshalLoop, Int.toNat_ofNat, hfree, frees_cons_free]
    simp [frees]
  unfold ReleasedExactlyOnce
  rw [ha, hf]
  constructor
  · rw [List.nodup_cons]
    refine ⟨fun hb => ?_, allocs_marshalLoop_nodup _ _ _ _ _⟩
    obtain ⟨j, _, h⟩ := allocs_marshalLoop_ge _ _ _ _ _ _ hb
    cases h
  · exact List.perm_append_singleton _ _

/-! ## The entry section of jniStartProxy -/

/-- An early return of the entry section returns `-1` and leaves the shared state as
it was. -/
theorem entry_returned (env : Env) (s : ProxyState) (args : List (Option String))
    (code : Int) (h : (jniStartProxy_entry env s args).ret = Entered.returned code) :
    code = -1 ∧ (jniStartProxy_entry env s args).state = s := by
  unfold jniStartProxy_entry at h ⊢
  simp only at h ⊢
  split at h
  · rw [if_pos (by assumption)]; simp at h; exact ⟨h.symm, rfl⟩
  · rw [if_neg (by assumption)]
    split at h
    · rw [if_pos (by assumption)]; simp at h; exact ⟨h.symm, rfl⟩
    · rw [if_neg (by assumption)]
      split at h
      · rw [if_pos (by assumption)]; simp at h; exact ⟨h.symm, rfl⟩
      · rw [if_neg (by assumption)]
        split at h
        · rw [if_pos (by assumption)]; simp at h; exact ⟨h.symm, rfl⟩
        · simp at h

/-- The entry section reaches `main` only from a state whose flag is `0`, and sets
the flag to `1`; `server_fd` and `g_event_pool` are not written. -/
theorem entry_invoke (env : Env) (s : ProxyState) (args : List (Option String))
    (argc : Int) (argv : List (Option String))
    (h : (jniStartProxy_entry env s args).ret = Entered.invoke argc argv) :
    s.g_proxy_running = 0 ∧
    (jniStartProxy_entry env s args).state =
      { s with
        params := reset_params env.clear_params s.params
        g_proxy_running := 1
        optind := 1 } := by
  unfold jniStartProxy_entry at h ⊢
  simp only at h ⊢
  split at h
  · simp at h
  · rename_i hrun
    rw [if_neg hrun]
    split at h
    · simp at h
    · rw [if_neg (by assumption)]
      split at h
      · simp at h
      · rw [if_neg (by assumption)]
        split at h
        · simp at h
        · rw [if_neg (by assumption)]
          exact ⟨not_not.mp hrun, rfl⟩

/-! ## Invariants of the interleaving model -/

theorem step_flagSound (S S1 : Sys) (a : Action) (hinv : FlagSound S)
    (hstep : step S a = some S1) : FlagSound S1 := by
  unfold FlagSound at *
  cases a with
  | start env args =>
    simp only [step] at hstep
    split at hstep
    · rename_i code hret
      obtain ⟨_, hst⟩ := entry_returned env S.st args code hret
      simp only [Option.some.injEq] at hstep
      subst hstep
      simpa [hst] using hinv
    · simp only [Option.some.injEq] at hstep
      subst hstep
      intro _
      simp
  | engineReturn k r =>
    simp only [step] at hstep
    split at hstep
    · simp at hstep
    · simp only [Option.some.injEq] at hstep
      subst hstep
      simp [jniStartProxy_exit]
  | stop ret =>
    simp only [step, Option.some.injEq] at hstep
    subst hstep
    simp only [jniStopProxy]
    split
    · rename_i h0; intro h1; simp [h0] at h1
    · split <;> simp
  | forceClose closeRet =>
    simp only [step, Option.some.injEq] at hstep
    subst hstep
    simp only [jniForceClose]
    split <;> simp
  | publishHandle fd =>
    simp only [step] at hstep
    split at hstep
    · simp at hstep
    · simp only [Option.some.injEq] at hstep
      subst hstep
      exact hinv
  | publishPool pool =>
    simp only [step] at hstep
    split at hstep
    · simp at hstep
    · simp only [Option.some.injEq] at hstep
      subst hstep
      exact hinv

theorem step_flagExact (S S1 : Sys) (a : Action) (ha : a.isShutdown = false)
    (hinv : FlagExact S) (hstep : step S a = some S1) : FlagExact S1 := by
  unfold FlagExact at *
  cases a with
  | start env args =>
    simp only [step] at hstep
    split at hstep
    · rename_i code hret
      obtain ⟨_, hst⟩ := entry_returned env S.st args code hret
      simp only [Option.some.injEq] at hstep
      subst hstep
      simpa [hst] using hinv
    · rename_i argc argv hret
      obtain ⟨h0, hst⟩ := entry_invoke env S.st args argc argv hret
      simp only [Option.some.injEq] at hstep
      subst hstep
      rcases hinv with ⟨_, hnil⟩ | ⟨h1, _⟩
      · right; simp [hst, hnil]
      · rw [h0] at h1; exact absurd h1 (by decide)
  | engineReturn k r =>
    simp only [step] at hstep
    split at hstep
    · simp at hstep
    · rename_i c hc
      simp only [Option.some.injEq] at hstep
      subst hstep
      left
      refine ⟨by simp [jniStartProxy_exit], ?_⟩
      rcases hinv with ⟨_, hnil⟩ | ⟨_, hlen⟩
      · simp [hnil] at hc
      · apply List.eq_nil_of_length_eq_zero
        have hk : k < S.inflight.length := by
          rcases List.getElem?_eq_some_iff.mp hc with ⟨hk, _⟩; exact hk
        rw [List.length_eraseIdx, if_pos hk]; omega
  | stop ret => simp [Action.isShutdown] at ha
  | forceClose closeRet => simp [Action.isShutdown] at ha
  | publishHandle fd =>
    simp only [step] at hstep
    split at hstep
    · simp at hstep
    · simp only [Option.some.injEq] at hstep
      subst hstep
      exact hinv
  | publishPool pool =>
    simp only [step] at hstep
    split at hstep
    · simp at hstep
    · simp only [Option.some.injEq] at hstep
      subst hstep
      exact hinv

theorem run_flagSound (S S1 : Sys) (tr : List Action) (hinv : FlagSound S)
    (hrun : run S tr = some S1) : FlagSound S1 := by
  induction tr generalizing S with
  | nil => simp only [run, Option.some.injEq] at hrun; subst hrun; exact hinv
  | cons a tr ih =>
    simp only [run] at hrun
    cases hs : step S a with
    | none => simp [hs] at hrun
    | some S2 =>
      rw [hs] at hrun
      exact ih S2 (step_flagSound S S2 a hinv hs) hrun

theorem run_flagExact (S S1 : Sys) (tr : List Action)
    (htr : ∀ a ∈ tr, a.isShutdown = false) (hinv : FlagExact S)
    (hrun : run S tr = some S1) : FlagExact S1 := by
  induction tr generalizing S with
  | nil => simp only [run, Option.some.injEq] at hrun; subst hrun; exact hinv
  | cons a tr ih =>
    simp only [run] at hrun
    cases hs : step S a with
    | none => simp [hs] at hrun
    | some S2 =>
      rw [hs] at hrun
      exact ih S2 (fun b hb => htr b (List.mem_cons_of_mem a hb))
        (step_flagExact S S2 a (htr a (List.mem_cons_self a tr)) hinv hs) hrun

/-! ## The branches of jniStartProxy -/

theorem start_running (env : Env)
    (main : ProxyState → Int → List (Option String) → ProxyState × Int)
    (s : ProxyState) (args : List (Option String)) (h : s.g_proxy_running ≠ 0) :
    jniStartProxy env main s args = ⟨-1, s, [Log.alreadyRunning], [], []⟩ := by
  simp [jniStartProxy, jniStartProxy_entry, h]

theorem start_no_args (env : Env)
    (main : ProxyState → Int → List (Option String) → ProxyState × Int)
    (s : ProxyState) (args : List (Option String)) (h : s.g_proxy_running = 0)
    (hN : (args.length : Int) ≤ 0) :
    jniStartProxy env main s args = ⟨-1, s, [Log.invalidArgsCount args.length], [], []⟩ := by
  simp [jniStartProxy, jniStartProxy_entry, h, hN]

theorem start_no_vector (env : Env)
    (main : ProxyState → Int → List (Option String) → ProxyState × Int)
    (s : ProxyState) (args : List (Option String)) (h : s.g_proxy_running = 0)
    (hN : 0 < args.length) (hc : env.callocOk = false) :
    jniStartProxy env main s args = ⟨-1, s, [Log.argvAllocFailed], [], []⟩ := by
  have hN1 : ¬ (args.length : Int) ≤ 0 := by omega
  simp [jniStartProxy, jniStartProxy_entry, h, hN1, hc]

theorem entry_error (env : Env) (s : ProxyState) (args : List (Option String))
    (h : s.g_proxy_running = 0) (hN : 0 < args.length) (hc : env.callocOk = true)
    (he : (marshalLoop env args args.length 0 (List.replicate args.length none)).error
      = true) :
    jniStartProxy_entry env s args =
      ⟨Entered.returned (-1), s,
        (marshalLoop env args args.length 0 (List.replicate args.length none)).log, [],
        MemEv.alloc Buf.vec ::
            (marshalLoop env args args.length 0 (List.replicate args.length none)).mem
          ++ releaseArgv args.length
            (marshalLoop env args args.length 0 (List.replicate args.length none)).argv⟩ := by
  have hN1 : ¬ (args.length : Int) ≤ 0 := by omega
  simp [jniStartProxy_entry, h, hN1, hc, he]

theorem entry_ok (env : Env) (s : ProxyState) (args : List (Option String))
    (h : s.g_proxy_running = 0) (hN : 0 < args.length) (hc : env.callocOk = true)
    (he : (marshalLoop env args args.length 0 (List.replicate args.length none)).error
      = false) :
    jniStartProxy_entry env s args =
      ⟨Entered.invoke args.length
          (marshalLoop env args args.length 0 (List.replicate args.length none)).argv,
        { s with
          params := reset_params env.clear_params s.params
          g_proxy_running := 1
          optind := 1 },
        (marshalLoop env args args.length 0 (List.replicate args.length none)).log
          ++ [Log.starting args.length], [],
        MemEv.alloc Buf.vec ::
          (marshalLoop env args args.length 0 (List.replicate args.length none)).mem⟩ := by
  have hN1 : ¬ (args.length : Int) ≤ 0 := by omega
  simp [jniStartProxy_entry, h, hN1, hc, he]

/-- Whatever path a `jniStartProxy` call takes, its heap trace frees each buffer it
allocated exactly once. -/
theorem start_released (env : Env)
    (main : ProxyState → Int → List (Option String) → ProxyState × Int)
    (s : ProxyState) (args : List (Option String)) :
    ReleasedExactlyOnce (jniStartProxy env main s args).mem := by
  have hnil : ReleasedExactlyOnce [] := ⟨List.nodup_nil, List.Perm.refl _⟩
  by_cases hrun : s.g_proxy_running = 0
  · by_cases hN : 0 < args.length
    · cases hc : env.callocOk with
      | false => rw [start_no_vector env main s args hrun hN hc]; exact hnil
      | true =>
        cases he : (marshalLoop env args args.length 0
            (List.replicate args.length none)).error with
        | true =>
          simp only [jniStartProxy, entry_error env s args hrun hN hc he]
          exact released_marshal env args args.length
        | false =>
          simp only [jniStartProxy, entry_ok env s args hrun hN hc he, jniStartProxy_exit]
          exact released_marshal env args args.length
    · rw [start_no_args env main s args hrun (by omega)]; exact hnil
  · rw [start_running env main s args hrun]; exact hnil

/-! ## Single instance and the run-state flag -/

/-- C1 (evaluation of the code at the failing interleaving): from the initial system a
`jniStartProxy` call enters the engine, the engine stores its listening socket and
its pool, a `jniStopProxy` call clears the flag while that engine invocation has not
returned, and a second `jniStartProxy` call then passes the running check: two
invocations of `main` are in flight at once, with the flag at `1`. -/
theorem second_engine_invocation_after_stop :
    Initial sys0 ∧
    (run sys0 [Action.start envOk portArgs, Action.publishHandle 7,
        Action.publishPool (some ⟨0⟩), Action.stop 0,
        Action.start envOk portArgs]).map
        (fun S => (S.inflight, S.invocations, S.st.g_proxy_running))
      = some ([⟨2, portArgs⟩, ⟨2, portArgs⟩], 2, 1) :=
  ⟨⟨rfl, rfl, rfl⟩, rfl⟩

/-- C2 (counterexample): after a start entered the engine, the engine stored its
listening socket and a stop returned, the flag is `0` while one engine invocation is
still in flight. -/
theorem flag_clear_while_engine_in_flight :
    Initial sys0 ∧
    (run sys0 [Action.start envOk portArgs, Action.publishHandle 7,
        Action.stop 0]).map (fun S => (S.st.g_proxy_running, S.inflight))
      = some (0, [⟨2, portArgs⟩]) :=
  ⟨⟨rfl, rfl, rfl⟩, rfl⟩

/-- C2 (amended): in every state reached from an initial state, `g_proxy_running == 1`
implies that an engine invocation is in flight; and in every state reached by steps
none of which is a stop or forceClose call, `g_proxy_running == 0` implies that no
engine invocation is in flight. -/
theorem flag_implies_engine_in_flight (S0 S : Sys) (tr : List Action) (h0 : Initial S0)
    (hrun : run S0 tr = some S) :
    (S.st.g_proxy_running = 1 → S.inflight ≠ []) ∧
    ((∀ a ∈ tr, a.isShutdown = false) → S.st.g_proxy_running = 0 → S.inflight = []) := by
  constructor
  · refine run_flagSound S0 S tr (fun h1 => ?_) hrun
    rw [h0.1] at h1; exact absurd h1 (by decide)
  · intro htr hz
    rcases run_flagExact S0 S tr htr (Or.inl ⟨h0.1, h0.2.1⟩) hrun with ⟨_, hnil⟩ | ⟨h1, _⟩
    · exact hnil
    · rw [hz] at h1; exact absurd h1 (by decide)

/-- C2 (witness): the state right after a start entered the engine. -/
theorem flag_implies_engine_in_flight_witness :
    Initial sys0 ∧ run sys0 [Action.start envOk portArgs] = some sysStarted ∧
    sysStarted.inflight ≠ [] :=
  ⟨⟨rfl, rfl, rfl⟩, rfl,
    (flag_implies_engine_in_flight sys0 sysStarted [Action.start envOk portArgs]
      ⟨rfl, rfl, rfl⟩ rfl).1 rfl⟩

/-! ## start -/

/-- C3: when the flag is set, `jniStartProxy` returns `-1` on the "proxy already
running" branch for every argument list; it allocates nothing, issues no socket call,
leaves the whole shared state (flag, server handle, pool and its break flag,
configuration) as it was, and does not call `main`: the invocations in flight and
the invocation count are unchanged. -/
theorem start_while_running (env : Env)
    (main : ProxyState → Int → List (Option String) → ProxyState × Int)
    (s : ProxyState) (args : List (Option String)) (calls : List Call) (n : Nat)
    (h : s.g_proxy_running ≠ 0) :
    (jniStartProxy env main s args).ret = -1 ∧
    (jniStartProxy env main s args).log = [Log.alreadyRunning] ∧
    (jniStartProxy env main s args).state = s ∧
    (jniStartProxy env main s args).mem = [] ∧
    (jniStartProxy env main s args).sys = [] ∧
    (jniStartProxy_entry env s args).ret = Entered.returned (-1) ∧
    step ⟨s, calls, n⟩ (Action.start env args) = some ⟨s, calls, n⟩ := by
  rw [start_running env main s args h]
  refine ⟨rfl, rfl, rfl, rfl, rfl, ?_, ?_⟩ <;> simp [step, jniStartProxy_entry, h]

/-- C3 (witness): a second start while one invocation is in flight; the invocation
count stays at 1. -/
theorem start_while_running_witness :
    runningState.g_proxy_running ≠ 0 ∧
    (jniStartProxy envOk (mainReturns 0) runningState portArgs).ret = -1 ∧
    step ⟨runningState, [⟨2, portArgs⟩], 1⟩ (Action.start envOk portArgs)
      = some ⟨runningState, [⟨2, portArgs⟩], 1⟩ :=
  have h := start_while_running envOk (mainReturns 0) runningState portArgs
    [⟨2, portArgs⟩] 1 (by decide)
  ⟨by decide, h.1, h.2.2.2.2.2.2⟩

/-- C4 (counterexample): with the flag set and an empty argument list the call fails
on the "proxy already running" branch, not on the "invalid args count" branch. -/
theorem start_no_args_while_running :
    ((([] : List (Option String)).length : Int) ≤ 0) ∧
    (jniStartProxy envOk (mainReturns 0) runningState []).log = [Log.alreadyRunning] ∧
    (jniStartProxy envOk (mainReturns 0) runningState []).log
      ≠ [Log.invalidArgsCount 0] := by
  decide

/-- C4 (amended): for every argument list of length `N ≤ 0` and every state,
`jniStartProxy` returns `-1`, leaves the whole shared state as it was, allocates
nothing, issues no socket call and does not call `main`; the failing branch is
"invalid args count" when the flag is `0` and "proxy already running" when it is
set. -/
theorem start_invalid_args_count (env : Env)
    (main : ProxyState → Int → List (Option String) → ProxyState × Int)
    (s : ProxyState) (args : List (Option String)) (calls : List Call) (n : Nat)
    (hN : (args.length : Int) ≤ 0) :
    (jniStartProxy env main s args).ret = -1 ∧
    (jniStartProxy env main s args).state = s ∧
    (jniStartProxy env main s args).mem = [] ∧
    (jniStartProxy env main s args).sys = [] ∧
    (jniStartProxy env main s args).log =
      (if s.g_proxy_running ≠ 0 then [Log.alreadyRunning]
       else [Log.invalidArgsCount args.length]) ∧
    step ⟨s, calls, n⟩ (Action.start env args) = some ⟨s, calls, n⟩ := by
  by_cases hrun : s.g_proxy_running = 0
  · rw [start_no_args env main s args hrun hN]
    refine ⟨rfl, rfl, rfl, rfl, ?_, ?_⟩ <;> simp [step, jniStartProxy_entry, hrun, hN]
  · rw [start_running env main s args hrun]
    refine ⟨rfl, rfl, rfl, rfl, ?_, ?_⟩ <;> simp [step, jniStartProxy_entry, hrun]

/-- C4 (witness): the empty list in the idle state. -/
theorem start_invalid_args_count_witness :
    ((([] : List (Option String)).length : Int) ≤ 0) ∧
    (jniStartProxy envOk (mainReturns 0) idleState []).ret = -1 ∧
    (jniStartProxy envOk (mainReturns 0) idleState []).state = idleState ∧
    (jniStartProxy envOk (mainReturns 0) idleState []).log = [Log.invalidArgsCount 0] :=
  have h := start_invalid_args_count envOk (mainReturns 0) idleState [] [] 0 (by decide)
  ⟨by decide, h.1, h.2.1, h.2.2.2.2.1⟩

/-- C5 (counterexample): a start call that returns through the "proxy already
running" path leaves the flag at `1`. -/
theorem start_returns_while_running :
    (jniStartProxy envOk (mainReturns 0) runningState portArgs).ret = -1 ∧
    (jniStartProxy envOk (mainReturns 0) runningState portArgs).state.g_proxy_running
      = 1 := by
  decide

/-- C5 (amended): after a start call returns through the invalid argument count, the
allocation failure or the engine return path the flag is `0`; through the already
running path the shared state, flag included, is as before the call; and on every
path each buffer the call allocated has been freed exactly once. -/
theorem start_leaves_idle_and_releases (env : Env)
    (main : ProxyState → Int → List (Option String) → ProxyState × Int)
    (s : ProxyState) (args : List (Option String)) :
    (s.g_proxy_running = 0 → (jniStartProxy env main s args).state.g_proxy_running = 0) ∧
    (s.g_proxy_running ≠ 0 → (jniStartProxy env main s args).state = s) ∧
    ReleasedExactlyOnce (jniStartProxy env main s args).mem := by
  refine ⟨fun hrun => ?_, fun hrun => ?_, start_released env main s args⟩
  · cases hret : (jniStartProxy_entry env s args).ret with
    | returned code =>
      simp only [jniStartProxy, hret]
      rw [(entry_returned env s args code hret).2]; exact hrun
    | invoke argc argv => simp only [jniStartProxy, hret, jniStartProxy_exit]
  · rw [start_running env main s args hrun]

/-- C5 (witness): a run that reaches the engine from the idle state. -/
theorem start_leaves_idle_and_releases_witness :
    idleState.g_proxy_running = 0 ∧
    (jniStartProxy envOk (mainReturns 3) idleState portArgs).state.g_proxy_running = 0 ∧
    ReleasedExactlyOnce (jniStartProxy envOk (mainReturns 3) idleState portArgs).mem :=
  have h := start_leaves_idle_and_releases envOk (mainReturns 3) idleState portArgs
  ⟨rfl, h.1 rfl, h.2.2⟩

/-- C6: for a host list of length `N > 0`, from the idle state and with no failing
allocation (`calloc`, `GetStringUTFChars`, `strdup`), the entry section hands `main`
the count `N` and a vector equal to the host list slot by slot — a copy of the string
where the host element is present, `NULL` where it is null — and `main` is called
once: one invocation is added to those in flight and the count goes up by one. -/
theorem start_marshals_arguments (env : Env) (s : ProxyState)
    (args : List (Option String)) (calls : List Call) (n : Nat)
    (hidle : s.g_proxy_running = 0) (hN : 0 < args.length)
    (hcalloc : env.callocOk = true) (hutf : ∀ i, env.utfOk i = true)
    (hdup : ∀ i, env.strdupOk i = true) :
    (jniStartProxy_entry env s args).ret = Entered.invoke args.length args ∧
    step ⟨s, calls, n⟩ (Action.start env args) =
      some ⟨(jniStartProxy_entry env s args).state, calls ++ [⟨args.length, args⟩],
        n + 1⟩ := by
  have hentry := entry_ok env s args hidle hN hcalloc
    (marshalLoop_error_false env args _ _ _ hdup)
  rw [marshalLoop_eq_args env args hutf hdup] at hentry
  have hret : (jniStartProxy_entry env s args).ret = Entered.invoke args.length args := by
    rw [hentry]
  refine ⟨hret, ?_⟩
  simp only [step, hret]

/-- C6 (witness): three host elements, the middle one null. -/
theorem start_marshals_arguments_witness :
    idleState.g_proxy_running = 0 ∧
    0 < [some "--ip", none, some "127.0.0.1"].length ∧
    (jniStartProxy_entry envOk idleState [some "--ip", none, some "127.0.0.1"]).ret
      = Entered.invoke 3 [some "--ip", none, some "127.0.0.1"] :=
  ⟨rfl, by decide,
    (start_marshals_arguments envOk idleState [some "--ip", none, some "127.0.0.1"] [] 0
      rfl (by decide) rfl (fun _ => rfl) (fun _ => rfl)).1⟩

/-- C7: for a host list of length `N > 0` and the idle state, when `calloc` fails or
the `strdup` of some present argument at an index `k` fails, `jniStartProxy` returns
`-1` from its entry section, so `main` is never called; each buffer allocated by the
call (the vector and the slots duplicated before the failure) is freed exactly once;
and the whole shared state — flag, server handle, pool, configuration — is as it
was. -/
theorem start_allocation_failure (env : Env)
    (main : ProxyState → Int → List (Option String) → ProxyState × Int)
    (s : ProxyState) (args : List (Option String)) (calls : List Call) (n : Nat)
    (hidle : s.g_proxy_running = 0) (hN : 0 < args.length)
    (hfail : env.callocOk = false ∨
      ∃ k str, k < args.length ∧ args.getD k none = some str ∧
        env.utfOk k = true ∧ env.strdupOk k = false) :
    (jniStartProxy_entry env s args).ret = Entered.returned (-1) ∧
    (jniStartProxy env main s args).ret = -1 ∧
    (jniStartProxy env main s args).state = s ∧
    ReleasedExactlyOnce (jniStartProxy env main s args).mem ∧
    step ⟨s, calls, n⟩ (Action.start env args) = some ⟨s, calls, n⟩ := by
  have hentry : (jniStartProxy_entry env s args).ret = Entered.returned (-1) ∧
      (jniStartProxy_entry env s args).state = s := by
    have hN1 : ¬ (args.length : Int) ≤ 0 := by omega
    cases hc : env.callocOk with
    | false => simp [jniStartProxy_entry, hidle, hN1, hc]
    | true =>
      rcases hfail with hc0 | ⟨k, str, hk, harg, hutf, hdup⟩
      · rw [hc] at hc0; exact absurd hc0 (by decide)
      · rw [entry_error env s args hidle hN hc
          (marshalLoop_error_true env args _ 0 _ k (Nat.zero_le k) (by omega) str harg hutf
            hdup)]
        exact ⟨rfl, rfl⟩
  refine ⟨hentry.1, ?_, ?_, start_released env main s args, ?_⟩
  · simp only [jniStartProxy, hentry.1]
  · simp only [jniStartProxy, hentry.1, hentry.2]
  · simp only [step, hentry.1, hentry.2]

/-- C7 (witness): three present arguments, the duplication of slot 1 fails. -/
theorem start_allocation_failure_witness :
    idleState.g_proxy_running = 0 ∧
    0 < [some "-p", some "1080", some "-x"].length ∧
    envDupFails1.strdupOk 1 = false ∧
    (jniStartProxy envDupFails1 (mainReturns 0) idleState
      [some "-p", some "1080", some "-x"]).ret = -1 ∧
    (jniStartProxy envDupFails1 (mainReturns 0) idleState
      [some "-p", some "1080", some "-x"]).state = idleState ∧
    ReleasedExactlyOnce (jniStartProxy envDupFails1 (mainReturns 0) idleState
      [some "-p", some "1080", some "-x"]).mem :=
  have h := start_allocation_failure envDupFails1 (mainReturns 0) idleState
    [some "-p", some "1080", some "-x"] [] 0 rfl (by decide)
    (Or.inr ⟨1, "1080", by decide, rfl, rfl, rfl⟩)
  ⟨rfl, by decide, rfl, h.2.1, h.2.2.1, h.2.2.2.1⟩

/-- C8: a start call that reaches the engine (idle state, `N > 0`, no `calloc` or
`strdup` failure) returns exactly the exit code `main` returned, and the state it
leaves is the state at the engine's return — whatever other threads made of it while
the engine ran — with the flag set to `0`. -/
theorem start_returns_engine_exit_code (env : Env)
    (main : ProxyState → Int → List (Option String) → ProxyState × Int)
    (s : ProxyState) (args : List (Option String))
    (hidle : s.g_proxy_running = 0) (hN : 0 < args.length)
    (hcalloc : env.callocOk = true) (hdup : ∀ i, env.strdupOk i = true) :
    ∃ argv, (jniStartProxy_entry env s args).ret = Entered.invoke args.length argv ∧
      (jniStartProxy env main s args).ret
        = (main (jniStartProxy_entry env s args).state args.length argv).2 ∧
      (jniStartProxy env main s args).state
        = { (main (jniStartProxy_entry env s args).state args.length argv).1 with
            g_proxy_running := 0 } ∧
      (jniStartProxy env main s args).state.g_proxy_running = 0 := by
  have hentry := entry_ok env s args hidle hN hcalloc
    (marshalLoop_error_false env args _ _ _ hdup)
  have hret : (jniStartProxy_entry env s args).ret = Entered.invoke args.length
      (marshalLoop env args args.length 0 (List.replicate args.length none)).argv := by
    rw [hentry]
  refine ⟨_, hret, ?_, ?_, ?_⟩ <;> simp only [jniStartProxy, hret, jniStartProxy_exit]

/-- C8 (witness): the engine returns 7 after another thread has called stop. -/
theorem start_returns_engine_exit_code_witness :
    idleState.g_proxy_running = 0 ∧ 0 < portArgs.length ∧
    (jniStartProxy envOk (mainStopped 7) idleState portArgs).ret = 7 ∧
    (jniStartProxy envOk (mainStopped 7) idleState portArgs).state.g_proxy_running = 0 :=
  have h := start_returns_engine_exit_code envOk (mainStopped 7) idleState portArgs
    rfl (by decide) rfl (fun _ => rfl)
  ⟨rfl, by decide, h.elim fun _ hx => hx.2.1, h.elim fun _ hx => hx.2.2.2⟩

/-! ## stop -/

/-- C9: when the flag is `0`, `jniStopProxy` returns `-1` on the "proxy is not running"
branch, leaves the whole shared state as it was (flag, server handle, pool and its
break flag), and issues no `shutdown` and no `close`. -/
theorem stop_while_idle (s : ProxyState) (ret : Int) (h : s.g_proxy_running = 0) :
    (jniStopProxy s ret).ret = -1 ∧
    (jniStopProxy s ret).log = [Log.sendShutdown, Log.notRunning] ∧
    (jniStopProxy s ret).state = s ∧
    (jniStopProxy s ret).sys = [] := by
  simp [jniStopProxy, h]

/-- C9 (witness): stop in the idle state. -/
theorem stop_while_idle_witness :
    idleState.g_proxy_running = 0 ∧
    (jniStopProxy idleState 0).ret = -1 ∧
    (jniStopProxy idleState 0).state = idleState ∧
    (jniStopProxy idleState 0).sys = [] :=
  have h := stop_while_idle idleState 0 rfl
  ⟨rfl, h.1, h.2.2.1, h.2.2.2⟩

/-- C10 (counterexample): in the idle state a stop call issues no socket call at all,
so no half-close. -/
theorem stop_idle_no_half_close :
    (jniStopProxy idleState 0).sys = [] ∧
    SysEv.shutdown idleState.server_fd ∉ (jniStopProxy idleState 0).sys := by
  decide

/-- C10 (amended): for every state, a stop call issues no `close` and leaves the
stored handle value as it was; it issues a half-close, `shutdown` on `server_fd`,
exactly when the flag is set and the handle is valid (`server_fd >= 0`), and no socket
call otherwise. -/
theorem stop_half_close_only (s : ProxyState) (ret : Int) :
    (jniStopProxy s ret).sys =
      (if s.g_proxy_running ≠ 0 ∧ 0 ≤ s.server_fd then [SysEv.shutdown s.server_fd]
       else []) ∧
    (∀ fd, SysEv.close fd ∉ (jniStopProxy s ret).sys) ∧
    (jniStopProxy s ret).state.server_fd = s.server_fd := by
  unfold jniStopProxy
  by_cases h0 : s.g_proxy_running = 0
  · simp [h0]
  · by_cases hfd : s.server_fd < 0
    · simp [h0, hfd]
    · simp [h0, hfd, not_lt.mp hfd]

/-! ## forceClose -/

/-- After a `jniForceClose` call the stored handle is negative and the flag is
`0`. -/
theorem forceClose_state (s : ProxyState) (closeRet : Int) :
    (jniForceClose s closeRet).state.server_fd < 0 ∧
    (jniForceClose s closeRet).state.g_proxy_running = 0 := by
  unfold jniForceClose
  by_cases hfd : s.server_fd < 0
  · simp [hfd]
  · simp [hfd]

/-- C11: for every state and every outcome of the two `close` calls, a second
`jniForceClose` call right after a first one returns `0` on the "already closed"
branch, leaves the state exactly as the first call left it, issues no `shutdown` and
no `close`, and does not reach the statement that writes the break flag. -/
theorem forceClose_twice (s : ProxyState) (closeRet1 closeRet2 : Int) :
    (jniForceClose (jniForceClose s closeRet1).state closeRet2).state
      = (jniForceClose s closeRet1).state ∧
    (jniForceClose (jniForceClose s closeRet1).state closeRet2).ret = 0 ∧
    (jniForceClose (jniForceClose s closeRet1).state closeRet2).sys = [] ∧
    (jniForceClose (jniForceClose s closeRet1).state closeRet2).log =
      [Log.forceClosing (jniForceClose s closeRet1).state.server_fd,
        Log.alreadyClosed (jniForceClose s closeRet1).state.server_fd] := by
  obtain ⟨hfd, hrun⟩ := forceClose_state s closeRet1
  generalize (jniForceClose s closeRet1).state = s1 at hfd hrun
  unfold jniForceClose
  simp only [if_pos hfd, and_true, true_and]
  cases s1
  simp_all

/-- C12: for every state — flag set or clear, handle valid or not, pool present or
not — and every outcome of `close` (that of `shutdown` is discarded by the code), the
state after `jniForceClose` has `server_fd < 0` and the flag at `0`; the call returns
`0`. -/
theorem forceClose_invalidates_handle (s : ProxyState) (closeRet : Int) :
    (jniForceClose s closeRet).state.server_fd < 0 ∧
    (jniForceClose s closeRet).state.g_proxy_running = 0 ∧
    (jniForceClose s closeRet).ret = 0 := by
  refine ⟨(forceClose_state s closeRet).1, (forceClose_state s closeRet).2, ?_⟩
  unfold jniForceClose
  split <;> rfl

/-! ## Return codes -/

/-- When the marshalling loop is left with `error` set, it logged the failing
duplication of one slot, the one whose `strdup` failed. -/
theorem marshalLoop_error_log (env : Env) (args : List (Option String)) (n i : Nat)
    (argv : List (Option String))
    (he : (marshalLoop env args n i argv).error = true) :
    ∃ k, i ≤ k ∧ k < i + n ∧ env.strdupOk k = false ∧
      (marshalLoop env args n i argv).log = [Log.dupFailed k] := by
  induction n generalizing i argv with
  | zero => simp [marshalLoop] at he
  | succ n ih =>
    have hrec : ∀ v, (marshalLoop env args n (i + 1) (argv.set i v)).error = true →
        ∃ k, i ≤ k ∧ k < i + (n + 1) ∧ env.strdupOk k = false ∧
          (marshalLoop env args n (i + 1) (argv.set i v)).log = [Log.dupFailed k] :=
      fun v hv => by
        obtain ⟨k, h1, h2, h3, h4⟩ := ih (i + 1) _ hv
        exact ⟨k, by omega, by omega, h3, h4⟩
    unfold marshalLoop at he ⊢
    split
    · rename_i harg; rw [harg] at he; exact hrec none he
    · rename_i arg_str harg
      rw [harg] at he
      by_cases hutf : env.utfOk i = true
      · by_cases hdup : env.strdupOk i = true
        · simp only [hutf, hdup, if_true] at he ⊢
          exact hrec (some arg_str) he
        · simp only [hutf, hdup, if_true] at he ⊢
          exact ⟨i, le_refl i, by omega, by simpa using hdup, by simp⟩
      · simp only [hutf] at he ⊢
        exact hrec none he

/-- C13 (counterexample): a start refused as already running, a start refused for
its empty argument list and a stop refused as not running all return `-1`, though
their log lines differ; and a start whose engine exits with `-1` returns that same
value. -/
theorem failure_codes_coincide :
    (jniStartProxy envOk (mainReturns 0) runningState portArgs).ret
      = (jniStartProxy envOk (mainReturns 0) idleState []).ret ∧
    (jniStartProxy envOk (mainReturns 0) runningState portArgs).log
      ≠ (jniStartProxy envOk (mainReturns 0) idleState []).log ∧
    (jniStartProxy envOk (mainReturns 0) idleState []).ret
      = (jniStartProxy envNoVec (mainReturns 0) idleState portArgs).ret ∧
    (jniStopProxy idleState 0).ret = (jniStopProxy startedBadHandle 0).ret ∧
    (jniStopProxy idleState 0).log ≠ (jniStopProxy startedBadHandle 0).log ∧
    (jniStartProxy envOk (mainReturns (-1)) idleState portArgs).ret
      = (jniStartProxy envOk (mainReturns 0) runningState portArgs).ret := by
  decide

/-- C13 (amended): every failure of start and of stop is returned to the caller as
the one code `-1`, and the kinds differ by the line that is logged: "proxy already
running", "invalid args count", "failed to allocate memory for argv", "failed to
duplicate string at index k", "proxy is not running", "invalid server_fd". A start
that reached the engine returns the engine's exit code as it is, so that code may
be `-1` as well. -/
theorem failures_return_minus_one (env : Env)
    (main : ProxyState → Int → List (Option String) → ProxyState × Int)
    (s : ProxyState) (args : List (Option String)) (ret : Int) :
    (s.g_proxy_running ≠ 0 →
      (jniStartProxy env main s args).ret = -1 ∧
      (jniStartProxy env main s args).log = [Log.alreadyRunning]) ∧
    (s.g_proxy_running = 0 → (args.length : Int) ≤ 0 →
      (jniStartProxy env main s args).ret = -1 ∧
      (jniStartProxy env main s args).log = [Log.invalidArgsCount args.length]) ∧
    (s.g_proxy_running = 0 → 0 < args.length → env.callocOk = false →
      (jniStartProxy env main s args).ret = -1 ∧
      (jniStartProxy env main s args).log = [Log.argvAllocFailed]) ∧
    (s.g_proxy_running = 0 → 0 < args.length → env.callocOk = true →
      (∃ k str, k < args.length ∧ args.getD k none = some str ∧
        env.utfOk k = true ∧ env.strdupOk k = false) →
      (jniStartProxy env main s args).ret = -1 ∧
      ∃ k, env.strdupOk k = false ∧
        (jniStartProxy env main s args).log = [Log.dupFailed k]) ∧
    (s.g_proxy_running = 0 →
      (jniStopProxy s ret).ret = -1 ∧
      (jniStopProxy s ret).log = [Log.sendShutdown, Log.notRunning]) ∧
    (s.g_proxy_running ≠ 0 → s.server_fd < 0 →
      (jniStopProxy s ret).ret = -1 ∧
      (jniStopProxy s ret).log = [Log.sendShutdown, Log.invalidServerFd s.server_fd]) ∧
    (∀ argc argv, (jniStartProxy_entry env s args).ret = Entered.invoke argc argv →
      (jniStartProxy env main s args).ret
        = (main (jniStartProxy_entry env s args).state argc argv).2) := by
  refine ⟨fun h => ?_, fun h hN => ?_, fun h hN hc => ?_, fun h hN hc hk => ?_,
    fun h => ?_, fun h hfd => ?_, fun argc argv hret => ?_⟩
  · rw [start_running env main s args h]; exact ⟨rfl, rfl⟩
  · rw [start_no_args env main s args h hN]; exact ⟨rfl, rfl⟩
  · rw [start_no_vector env main s args h hN hc]; exact ⟨rfl, rfl⟩
  · obtain ⟨k, str, hk, harg, hutf, hdup⟩ := hk
    have he := marshalLoop_error_true env args args.length 0
      (List.replicate args.length none) k (Nat.zero_le k) (by omega) str harg hutf hdup
    obtain ⟨j, _, _, hj, hlog⟩ := marshalLoop_error_log env args _ _ _ he
    refine ⟨?_, j, hj, ?_⟩
    · simp only [jniStartProxy, entry_error env s args h hN hc he]
    · simp only [jniStartProxy, entry_error env s args h hN hc he]
      exact hlog
  · simp [jniStopProxy, h]
  · simp [jniStopProxy, h, hfd]
  · simp only [jniStartProxy, hret, jniStartProxy_exit]

/-- C13 (witness): the already running failure, the not running failure, and an
engine that exits with `-1`. -/
theorem failures_return_minus_one_witness :
    runningState.g_proxy_running ≠ 0 ∧ idleState.g_proxy_running = 0 ∧
    (jniStartProxy envOk (mainReturns (-1)) runningState portArgs).ret = -1 ∧
    (jniStopProxy idleState 0).ret = -1 ∧
    (jniStartProxy_entry envOk idleState portArgs).ret = Entered.invoke 2 portArgs ∧
    (jniStartProxy envOk (mainReturns (-1)) idleState portArgs).ret
      = (mainReturns (-1) (jniStartProxy_entry envOk idleState portArgs).state 2
          portArgs).2 :=
  have hr := failures_return_minus_one envOk (mainReturns (-1)) runningState portArgs 0
  have hi := failures_return_minus_one envOk (mainReturns (-1)) idleState portArgs 0
  ⟨by decide, rfl, (hr.1 (by decide)).1, (hi.2.2.2.2.1 rfl).1, rfl,
    hi.2.2.2.2.2.2 2 portArgs rfl⟩

/-! ## Scenarios -/

/-- With every allocation succeeding, the entry section started from a clear flag on
a non-empty list hands the list itself to `main` and sets the flag. -/
theorem entry_ok_args (env : Env) (s : ProxyState) (args : List (Option String))
    (h : s.g_proxy_running = 0) (hN : 0 < args.length) (hc : env.callocOk = true)
    (hutf : ∀ i, env.utfOk i = true) (hdup : ∀ i, env.strdupOk i = true) :
    (jniStartProxy_entry env s args).ret = Entered.invoke args.length args ∧
    (jniStartProxy_entry env s args).state =
      { s with
        params := reset_params env.clear_params s.params
        g_proxy_running := 1
        optind := 1 } := by
  have hentry := entry_ok env s args h hN hc (marshalLoop_error_false env args _ _ _ hdup)
  rw [marshalLoop_eq_args env args hutf hdup] at hentry
  rw [hentry]
  exact ⟨rfl, rfl⟩

/-- C14: the trace start(["--port","1080"]) from an idle state, the engine storing a
valid handle `fd`, stop from another thread, the engine returning `r`, a further
start with valid arguments. The stop call returns `0` while the engine invocation is
still in flight; the rest of the first start call returns `r` and leaves the flag at
`0` with no invocation in flight; the further start passes the running check, sets
the flag and calls `main` a second time. -/
theorem scenario_start_stop_restart (env env2 : Env) (s0 : ProxyState)
    (args2 : List (Option String)) (fd ret r : Int)
    (h0 : s0.g_proxy_running = 0) (hfd : 0 ≤ fd)
    (hc : env.callocOk = true) (hutf : ∀ i, env.utfOk i = true)
    (hdup : ∀ i, env.strdupOk i = true)
    (hN2 : 0 < args2.length) (hc2 : env2.callocOk = true)
    (hutf2 : ∀ i, env2.utfOk i = true) (hdup2 : ∀ i, env2.strdupOk i = true) :
    ∃ S1 S2 S3 S4 S5,
      step ⟨s0, [], 0⟩ (Action.start env portArgs) = some S1 ∧
      S1.inflight = [⟨2, portArgs⟩] ∧
      step S1 (Action.publishHandle fd) = some S2 ∧
      (jniStopProxy S2.st ret).ret = 0 ∧
      step S2 (Action.stop ret) = some S3 ∧
      S3.inflight = [⟨2, portArgs⟩] ∧
      (jniStartProxy_exit S3.st 2 portArgs r).ret = r ∧
      step S3 (Action.engineReturn 0 r) = some S4 ∧
      S4.st.g_proxy_running = 0 ∧ S4.inflight = [] ∧
      step S4 (Action.start env2 args2) = some S5 ∧
      S5.st.g_proxy_running = 1 ∧
      S5.inflight = [⟨args2.length, args2⟩] ∧ S5.invocations = 2 := by
  obtain ⟨hret1, hst1⟩ := entry_ok_args env s0 portArgs h0 (by decide) hc hutf hdup
  have hnfd : ¬ fd < 0 := not_lt.mpr hfd
  have hstep1 : step ⟨s0, [], 0⟩ (Action.start env portArgs) =
      some ⟨(jniStartProxy_entry env s0 portArgs).state, [⟨2, portArgs⟩], 1⟩ := by
    simp only [step, hret1]; rfl
  have hrun1 : (jniStartProxy_entry env s0 portArgs).state.g_proxy_running = 1 := by
    rw [hst1]
  generalize (jniStartProxy_entry env s0 portArgs).state = s1 at hstep1 hrun1
  have hstop : (jniStopProxy { s1 with server_fd := fd } ret).ret = 0 ∧
      (jniStopProxy { s1 with server_fd := fd } ret).state.g_proxy_running = 0 := by
    simp [jniStopProxy, hrun1, hnfd]
  obtain ⟨hret5, hst5⟩ := entry_ok_args env2
    (jniStartProxy_exit (jniStopProxy { s1 with server_fd := fd } ret).state 2 portArgs
      r).state args2 rfl hN2 hc2 hutf2 hdup2
  refine ⟨_, ⟨{ s1 with server_fd := fd }, [⟨2, portArgs⟩], 1⟩,
    ⟨(jniStopProxy { s1 with server_fd := fd } ret).state, [⟨2, portArgs⟩], 1⟩,
    ⟨(jniStartProxy_exit (jniStopProxy { s1 with server_fd := fd } ret).state 2 portArgs
      r).state, [], 1⟩,
    ⟨(jniStartProxy_entry env2 (jniStartProxy_exit
      (jniStopProxy { s1 with server_fd := fd } ret).state 2 portArgs r).state
      args2).state, [⟨args2.length, args2⟩], 2⟩,
    hstep1, rfl, ?_, hstop.1, rfl, rfl, rfl, ?_, rfl, rfl, ?_, ?_, rfl, rfl⟩
  · simp [step]
  · simp [step]
  · simp only [step, hret5]; rfl
  · rw [hst5]

/-- C14 (witness): handle 7, `shutdown` succeeding, the engine exiting with 0, and a
restart with the same arguments. -/
theorem scenario_start_stop_restart_witness :
    freshState.g_proxy_running = 0 ∧ (0 : Int) ≤ 7 ∧ 0 < portArgs.length ∧
    (run sys0 [Action.start envOk portArgs, Action.publishHandle 7, Action.stop 0,
        Action.engineReturn 0 0, Action.start envOk portArgs]).map
        (fun S => (S.st.g_proxy_running, S.inflight, S.invocations))
      = some (1, [⟨2, portArgs⟩], 2) ∧
    ∃ S1 S2 S3 S4 S5,
      step ⟨freshState, [], 0⟩ (Action.start envOk portArgs) = some S1 ∧
      S1.inflight = [⟨2, portArgs⟩] ∧
      step S1 (Action.publishHandle 7) = some S2 ∧
      (jniStopProxy S2.st 0).ret = 0 ∧
      step S2 (Action.stop 0) = some S3 ∧
      S3.inflight = [⟨2, portArgs⟩] ∧
      (jniStartProxy_exit S3.st 2 portArgs 0).ret = 0 ∧
      step S3 (Action.engineReturn 0 0) = some S4 ∧
      S4.st.g_proxy_running = 0 ∧ S4.inflight = [] ∧
      step S4 (Action.start envOk portArgs) = some S5 ∧
      S5.st.g_proxy_running = 1 ∧
      S5.inflight = [⟨portArgs.length, portArgs⟩] ∧ S5.invocations = 2 :=
  ⟨rfl, by decide, by decide, rfl,
    scenario_start_stop_restart envOk envOk freshState portArgs 7 0 0 rfl (by decide) rfl
      (fun _ => rfl) (fun _ => rfl) (by decide) rfl (fun _ => rfl) (fun _ => rfl)⟩

/-! ## stop on a running proxy -/

/-- The third branch of `jniStopProxy`: flag set and handle valid. -/
theorem stop_valid (s : ProxyState) (ret : Int) (hrun : s.g_proxy_running ≠ 0)
    (hfd : 0 ≤ s.server_fd) :
    jniStopProxy s ret =
      ⟨0, { s with g_event_pool := (signalPool s.g_event_pool).1, g_proxy_running := 0 },
        [Log.sendShutdown, (signalPool s.g_event_pool).2,
          if ret < 0 then Log.shutdownFailed else Log.shutdownDone s.server_fd],
        [SysEv.shutdown s.server_fd], []⟩ := by
  have hnfd : ¬ s.server_fd < 0 := not_lt.mpr hfd
  simp only [jniStopProxy, if_neg hrun, if_neg hnfd]

/-- C15 (counterexample): in a running state where the engine has stored neither its
pool nor its listening socket (`server_fd` is `-1`, as a forceClose before the start
leaves it), a stop call returns `-1` on the "invalid server_fd" branch and issues no
half-close. -/
theorem stop_no_handle_no_half_close :
    (run ⟨idleState, [], 0⟩ [Action.forceClose 0, Action.start envOk portArgs]).map
        (fun S => S.st) = some startedNoHandle ∧
    startedNoHandle.g_proxy_running ≠ 0 ∧ startedNoHandle.g_event_pool = none ∧
    (jniStopProxy startedNoHandle 0).ret = -1 ∧
    (jniStopProxy startedNoHandle 0).sys = [] ∧
    SysEv.shutdown startedNoHandle.server_fd ∉ (jniStopProxy startedNoHandle 0).sys := by
  decide

/-- C15 (amended): for every running state whose pool pointer is `NULL` and whose
server handle is valid (`server_fd >= 0`), a stop call takes the "g_event_pool is
NULL" branch, writes no pool (the pointer stays `NULL`), and goes on to half-close
the server handle and return `0`. -/
theorem stop_null_pool (s : ProxyState) (ret : Int) (hrun : s.g_proxy_running ≠ 0)
    (hpool : s.g_event_pool = none) (hfd : 0 ≤ s.server_fd) :
    (jniStopProxy s ret).ret = 0 ∧
    (jniStopProxy s ret).state.g_event_pool = none ∧
    Log.poolNull ∈ (jniStopProxy s ret).log ∧
    Log.setBrk ∉ (jniStopProxy s ret).log ∧
    (jniStopProxy s ret).sys = [SysEv.shutdown s.server_fd] := by
  rw [stop_valid s ret hrun hfd, hpool]
  refine ⟨rfl, rfl, by simp [signalPool], ?_, rfl⟩
  by_cases hret : ret < 0 <;> simp [signalPool, hret]

/-- C15 (witness): a running state with socket 7 and no pool. -/
theorem stop_null_pool_witness :
    startedNoPool.g_proxy_running ≠ 0 ∧ startedNoPool.g_event_pool = none ∧
    0 ≤ startedNoPool.server_fd ∧
    (jniStopProxy startedNoPool 0).ret = 0 ∧
    (jniStopProxy startedNoPool 0).sys = [SysEv.shutdown 7] :=
  have h := stop_null_pool startedNoPool 0 (by decide) rfl (by decide)
  ⟨by decide, rfl, by decide, h.1, h.2.2.2.2⟩

/-- C16: for every running state with `server_fd < 0`, a stop call returns `-1` on
the "invalid server_fd" branch and changes nothing but the flag, which it sets to
`0`: the pool and its break flag are as before even when a pool is present, the
handle value is as before, and no `shutdown` and no `close` is issued. -/
theorem stop_invalid_handle (s : ProxyState) (ret : Int) (hrun : s.g_proxy_running ≠ 0)
    (hfd : s.server_fd < 0) :
    (jniStopProxy s ret).ret = -1 ∧
    (jniStopProxy s ret).log = [Log.sendShutdown, Log.invalidServerFd s.server_fd] ∧
    (jniStopProxy s ret).state = { s with g_proxy_running := 0 } ∧
    (jniStopProxy s ret).state.g_event_pool = s.g_event_pool ∧
    (jniStopProxy s ret).state.server_fd = s.server_fd ∧
    (jniStopProxy s ret).sys = [] := by
  simp [jniStopProxy, hrun, hfd]

/-- C16 (witness): a running state with handle `-1` and a pool whose flag is clear;
the flag stays clear. -/
theorem stop_invalid_handle_witness :
    startedBadHandle.g_proxy_running ≠ 0 ∧ startedBadHandle.server_fd < 0 ∧
    (jniStopProxy startedBadHandle 0).ret = -1 ∧
    (jniStopProxy startedBadHandle 0).state.g_proxy_running = 0 ∧
    (jniStopProxy startedBadHandle 0).state.g_event_pool = some ⟨0⟩ ∧
    (jniStopProxy startedBadHandle 0).sys = [] :=
  have h := stop_invalid_handle startedBadHandle 0 (by decide) (by decide)
  ⟨by decide, by decide, h.1, by rw [h.2.2.1], h.2.2.2.1, h.2.2.2.2.2⟩

/-- C18: for every running state with a valid handle and every value returned by
`shutdown` (negative ones included), a stop call returns `0`, sets the flag to `0`,
issues the half-close, and leaves the pool with its break flag set to `1` when a
pool is present and the pointer `NULL` when none is. -/
theorem stop_running_valid_handle (s : ProxyState) (ret : Int)
    (hrun : s.g_proxy_running ≠ 0) (hfd : 0 ≤ s.server_fd) :
    (jniStopProxy s ret).ret = 0 ∧
    (jniStopProxy s ret).state.g_proxy_running = 0 ∧
    (jniStopProxy s ret).state.g_event_pool
      = s.g_event_pool.map (fun p => { p with brk := 1 }) ∧
    (jniStopProxy s ret).state.server_fd = s.server_fd ∧
    (jniStopProxy s ret).sys = [SysEv.shutdown s.server_fd] := by
  rw [stop_valid s ret hrun hfd]
  refine ⟨rfl, rfl, ?_, rfl, rfl⟩
  cases s.g_event_pool <;> rfl

/-- C18 (witness): `shutdown` fails with `-1` on a running state with a pool. -/
theorem stop_running_valid_handle_witness :
    runningState.g_proxy_running ≠ 0 ∧ 0 ≤ runningState.server_fd ∧
    (jniStopProxy runningState (-1)).ret = 0 ∧
    (jniStopProxy runningState (-1)).state.g_proxy_running = 0 ∧
    (jniStopProxy runningState (-1)).state.g_event_pool = some ⟨1⟩ ∧
    Log.shutdownFailed ∈ (jniStopProxy runningState (-1)).log :=
  have h := stop_running_valid_handle runningState (-1) (by decide) (by decide)
  ⟨by decide, by decide, h.1, h.2.1, h.2.2.1, by decide⟩

/-! ## Configuration reset and unreadable arguments -/

/-- C17: whatever `params` and `optind` hold before the call (and whatever
`clear_params` does to the old configuration), a start call that reaches the engine
calls `main` in a state with `params` equal to `default_params` and `optind` equal
to `1`; so two runs started from any two states see the same configuration; and
`reset_params` applied twice gives what it gives applied once. -/
theorem start_resets_configuration (env1 env2 : Env) (s1 s2 : ProxyState)
    (args1 args2 : List (Option String)) (argc1 argc2 : Int)
    (argv1 argv2 : List (Option String))
    (h1 : (jniStartProxy_entry env1 s1 args1).ret = Entered.invoke argc1 argv1)
    (h2 : (jniStartProxy_entry env2 s2 args2).ret = Entered.invoke argc2 argv2) :
    (jniStartProxy_entry env1 s1 args1).state.params = default_params ∧
    (jniStartProxy_entry env1 s1 args1).state.optind = 1 ∧
    (jniStartProxy_entry env1 s1 args1).state.params
      = (jniStartProxy_entry env2 s2 args2).state.params ∧
    (jniStartProxy_entry env1 s1 args1).state.optind
      = (jniStartProxy_entry env2 s2 args2).state.optind ∧
    reset_params env1.clear_params (reset_params env1.clear_params s1.params)
      = reset_params env1.clear_params s1.params := by
  rw [(entry_invoke env1 s1 args1 argc1 argv1 h1).2,
    (entry_invoke env2 s2 args2 argc2 argv2 h2).2]
  exact ⟨rfl, rfl, rfl, rfl, rfl⟩

/-- C17 (witness): a first run from the default configuration and a second one from
the configuration and `optind` a previous run left behind. -/
theorem start_resets_configuration_witness :
    (jniStartProxy_entry envOk idleState portArgs).ret = Entered.invoke 2 portArgs ∧
    (jniStartProxy_entry envOk usedState portArgs).ret = Entered.invoke 2 portArgs ∧
    usedState.params ≠ default_params ∧ usedState.optind ≠ 1 ∧
    (jniStartProxy_entry envOk usedState portArgs).state.params = default_params ∧
    (jniStartProxy_entry envOk usedState portArgs).state.optind = 1 ∧
    (jniStartProxy_entry envOk usedState portArgs).state.params
      = (jniStartProxy_entry envOk idleState portArgs).state.params :=
  have h := start_resets_configuration envOk envOk usedState idleState portArgs portArgs
    2 2 portArgs portArgs rfl rfl
  ⟨rfl, rfl, by decide, by decide, h.1, h.2.1, h.2.2.1⟩

/-- With no failing `strdup`, slot `j` of the vector the loop leaves is the host
element `j` when its characters could be obtained, and `NULL` when they could not. -/
theorem marshalLoop_slots (env : Env) (args : List (Option String)) (n i : Nat)
    (argv : List (Option String)) (hdup : ∀ j, env.strdupOk j = true)
    (hlen : i + n ≤ argv.length) (j : Nat) (hij : i ≤ j) (hjn : j < i + n) :
    (marshalLoop env args n i argv).argv.getD j none
      = if env.utfOk j = true then args.getD j none else none := by
  induction n generalizing i argv with
  | zero => omega
  | succ n ih =>
    have hstep : ∀ v : Option String,
        v = (if env.utfOk i = true then args.getD i none else none) →
        (marshalLoop env args n (i + 1) (argv.set i v)).argv.getD j none
          = if env.utfOk j = true then args.getD j none else none := fun v hv => by
      by_cases hk : i = j
      · subst hk
        rw [marshalLoop_below _ _ _ _ _ _ (Nat.lt_succ_self i),
          getD_set_self _ _ _ _ (by omega), hv]
      · exact ih (i + 1) _ (by simpa using (by omega : i + 1 + n ≤ argv.length))
          (by omega) (by omega)
    unfold marshalLoop
    split
    · rename_i h; exact hstep none (by rw [h]; simp)
    · rename_i arg_str h
      by_cases hutf : env.utfOk i = true
      · simp only [hutf, hdup, if_true]
        exact hstep (some arg_str) (by rw [h]; simp [hutf])
      · simp only [hutf]
        exact hstep none (by simp [hutf])

/-- C19: for a host list of length `N > 0` and the idle state, with `calloc` and
every `strdup` succeeding: when `GetStringUTFChars` returns `NULL` for the present
element `k`, the call does not fail; `main` is called with `argc = N` and a vector
of length `N` in which slot `k` is `NULL`, not the host string, and every other
slot is marshalled as usual (the host string when its characters were obtained,
`NULL` otherwise). -/
theorem start_unreadable_argument (env : Env) (s : ProxyState)
    (args : List (Option String)) (calls : List Call) (n k : Nat) (str : String)
    (hidle : s.g_proxy_running = 0) (hN : 0 < args.length)
    (hcalloc : env.callocOk = true) (hdup : ∀ i, env.strdupOk i = true)
    (hk : k < args.length) (harg : args.getD k none = some str)
    (hutf : env.utfOk k = false) :
    ∃ argv, (jniStartProxy_entry env s args).ret = Entered.invoke args.length argv ∧
      argv.length = args.length ∧
      argv.getD k none = none ∧
      argv.getD k none ≠ args.getD k none ∧
      (∀ j, j < args.length →
        argv.getD j none = if env.utfOk j = true then args.getD j none else none) ∧
      step ⟨s, calls, n⟩ (Action.start env args) =
        some ⟨(jniStartProxy_entry env s args).state,
          calls ++ [⟨args.length, argv⟩], n + 1⟩ := by
  have hentry := entry_ok env s args hidle hN hcalloc
    (marshalLoop_error_false env args _ _ _ hdup)
  have hret : (jniStartProxy_entry env s args).ret = Entered.invoke args.length
      (marshalLoop env args args.length 0 (List.replicate args.length none)).argv := by
    rw [hentry]
  have hslots : ∀ j, j < args.length →
      (marshalLoop env args args.length 0 (List.replicate args.length none)).argv.getD j
        none = if env.utfOk j = true then args.getD j none else none := fun j hj =>
    marshalLoop_slots env args args.length 0 _ hdup (by simp) j (Nat.zero_le j)
      (by simpa using hj)
  refine ⟨_, hret, ?_, ?_, ?_, hslots, ?_⟩
  · rw [marshalLoop_length]; simp
  · rw [hslots k hk]; simp [hutf]
  · rw [hslots k hk, harg]; simp [hutf]
  · simp only [step, hret]

/-- C19 (witness): three present elements, the characters of element 1 cannot be
obtained. -/
theorem start_unreadable_argument_witness :
    idleState.g_proxy_running = 0 ∧ envUtfFails1.utfOk 1 = false ∧
    (jniStartProxy_entry envUtfFails1 idleState [some "-p", some "1080", some "-x"]).ret
      = Entered.invoke 3 [some "-p", none, some "-x"] ∧
    ∃ argv, (jniStartProxy_entry envUtfFails1 idleState
        [some "-p", some "1080", some "-x"]).ret = Entered.invoke 3 argv ∧
      argv.length = 3 ∧ argv.getD 1 none = none :=
  have h := start_unreadable_argument envUtfFails1 idleState
    [some "-p", some "1080", some "-x"] [] 0 1 "1080" rfl (by decide) rfl (fun _ => rfl)
    (by decide) rfl rfl
  ⟨rfl, rfl, rfl, h.elim fun argv hx => ⟨argv, hx.1, hx.2.1, hx.2.2.1⟩⟩

end ByeDpi
